import Mathlib

/-!
# testbot: the push-triggered integration-test runner (`cmd/testbot/main.go`)

A shallow embedding of `handler`, `runIn`, `buildBody`, `sanitize`, `postToSlack`
and `catch`, followed by the properties of the runner that are settled on it.

Conventions of the embedding.

* A Go `string` / `[]byte` is a sequence of bytes; it is modelled by `Str`, a list
  of natural numbers (the byte values).  Nothing below relies on a byte being
  smaller than 256, so every statement covers all Go strings.
* An effect (running a command, posting to the webhook, writing a log line,
  taking or releasing the mutex) is recorded as an `Event`; a function with
  effects returns the events it performed, in order, together with the panic it
  ended with, if any.
* The outside world (exit status and standard error of each command, result of
  each HTTP POST) is an explicit parameter, `World`.
* Library functions the source calls (`strings.Replace`, `strings.Join`,
  `json.Marshal` of a one-entry string map) are modelled next to their callers.
* Runs started by several calls of `handler` are goroutines of a `Process`, whose
  steps interleave them under the mutex `mu`.
-/

namespace Testbot

/-! ## Strings -/

/-- A Go string: its bytes, in order. -/
abbrev Str := List Nat

/-- The bytes of an ASCII string literal of the source. -/
def lit (s : String) : Str := s.toList.map Char.toNat

/-- The loop of `strings.Replace(s, old, new, -1)` for a non-empty `old`: scan left
to right; at a position where `old` occurs emit `new` and skip the occurrence
(`skip` counts the bytes of the occurrence still to be passed over), otherwise
copy one byte. -/
def replaceFrom (old new : Str) : Nat → Str → Str
  | _, [] => []
  | skip + 1, _ :: cs => replaceFrom old new skip cs
  | 0, c :: cs =>
    if old.isPrefixOf (c :: cs) = true then
      new ++ replaceFrom old new (old.length - 1) cs
    else
      c :: replaceFrom old new 0 cs

/-- Model of `strings.Replace(s, old, new, -1)` with `old` non-empty, which is how
`sanitize` calls it: all non-overlapping occurrences, leftmost first. -/
def Replace (s old new : Str) : Str := replaceFrom old new 0 s

/-- Model of `strings.Join(a, sep)`. -/
def Join : List Str → Str → Str
  | [], _ => []
  | [a], _ => a
  | a :: b :: rest, sep => a ++ sep ++ Join (b :: rest) sep

/-- The function `sanitize` of main.go, lines 135-141. -/
def sanitize (str : Str) : Str :=
  let str := Replace str (lit "\"") (lit "\\\"")
  let str := Replace str (lit "&") (lit "&amp;")
  let str := Replace str (lit "<") (lit "&lt;")
  let str := Replace str (lit ">") (lit "&gt;")
  str

/-- The escape of one byte, as the specification words it: backslash-quote for a
double quote, `&amp;` for `&`, `&lt;` for `<`, `&gt;` for `>`, the byte itself
otherwise. -/
def escapeByte (c : Nat) : Str :=
  if c = 34 then lit "\\\""
  else if c = 38 then lit "&amp;"
  else if c = 60 then lit "&lt;"
  else if c = 62 then lit "&gt;"
  else [c]

/-- The specification of escaping: the concatenation, over the bytes of `s` in
order, of the escape of each byte. -/
def escapeOnce : Str → Str
  | [] => []
  | c :: cs => escapeByte c ++ escapeOnce cs

/-! ## The request and the notification body -/

/-- The anonymous struct `Author` inside `Req.Commits`. -/
structure Author where
  Username : Str
  deriving DecidableEq

/-- One element of `Req.Commits`. -/
structure Commit where
  Message : Str
  URL : Str
  Author : Author
  deriving DecidableEq

/-- The struct `Req` of main.go, lines 27-38.  All four fields are exported, so
all four are filled by the JSON decoder from the request body. -/
structure Req where
  Ref : Str
  After : Str
  Log : Str
  Commits : List Commit
  deriving DecidableEq

/-- The first attachment written by `buildBody` (the raw string literals of lines
101-118 with `color`, `result` and the fields of the commit spliced in). -/
def firstAttachment (color result : Str) (c : Commit) : Str :=
  lit "\x7b\n\t\t\"attachments\": [\n\t\t\t\x7b\n\t\t\t\t\"color\": \"" ++ color ++
  lit "\",\n\t\t\t\t\"text\": \"Integration tests " ++ result ++
  lit "\",\n\t\t\t\t\"fields\": [\n\t\t\t\t\t\x7b\n\t\t\t\t\t\t\"title\": \"Commit\",\n\t\t\t\t\t\t\"value\": \"<" ++
  c.URL ++ lit "|" ++ c.Message ++
  lit ">\",\n\t\t\t\t\t\t\"short\": false\n\t\t\t\t\t\x7d,\n\t\t\t\t\t\x7b\n\t\t\t\t\t\t\"title\": \"Author\",\n\t\t\t\t\t\t\"value\": \"<https://github.com/" ++
  c.Author.Username ++ lit "|" ++ c.Author.Username ++
  lit ">\",\n\t\t\t\t\t\t\"short\": false\n\t\t\t\t\t\x7d\n\t\t\t\t]\n\t\t\t\x7d"

/-- The error-log attachment appended by `buildBody` on lines 125-130, around the
already sanitized log. -/
def logAttachment (text : Str) : Str :=
  lit ",\x7b\n\t\t\t\"text\": \"" ++ text ++
  lit "\",\n\t\t\t\"mrkdwn_in\": [\n\t\t\t\t\"text\"\n\t\t\t]\n\t\t\x7d]\x7d"

/-- The function `buildBody` of main.go, lines 91-133.  `req.Commits[0]` panics
with an index-out-of-range run-time error on an empty list: that is `none`. -/
def buildBody (req : Req) : Option Str :=
  let color := if req.Log = [] then lit "good" else lit "danger"
  let result := if req.Log = [] then lit "passed :thumbsup:" else lit "failed :thumbsdown:"
  match req.Commits with
  | [] => none
  | c :: _ =>
    let buffer := firstAttachment color result c
    if req.Log = [] then
      some (buffer ++ lit "]\x7d")
    else
      some (buffer ++ logAttachment (sanitize req.Log))

/-! ## Effects, configuration and the outside world -/

/-- The package-level configuration variables of main.go, lines 17-23 (all read
from the environment at start-up). -/
structure Config where
  listen : Str
  db1URL : Str
  db2URL : Str
  db3URL : Str
  slackURL : Str
  sourcedir : Str

/-- An `*exec.Cmd` as `runIn` runs it: the working directory it is given and its
argument vector `c.Args` (the command name first). -/
structure Cmd where
  Dir : Str
  Args : List Str
  deriving DecidableEq

/-- The observable actions of the program. -/
inductive Event where
  /-- `mu.Lock()` has returned. -/
  | lock
  /-- `mu.Unlock()`. -/
  | unlock
  /-- `c.Run()` of a command. -/
  | exec (c : Cmd)
  /-- `http.Post(url, "application/json", body)`. -/
  | post (url body : Str)
  /-- `log.Println` of the given operands. -/
  | log (operands : List Str)
  /-- `resp.Body.Close()`. -/
  | close
  deriving DecidableEq

/-- A value carried by a panic: a `[]byte`, which is how `runIn` ships a finished
failure report, or a value of any other dynamic type (a run-time error, say). -/
inductive Value where
  | bytes (b : Str)
  | other (description : Str)
  deriving DecidableEq

/-- The pair `(resp, err)` returned by `http.Post`: whether `resp` is non-nil, and
the error, if any. -/
structure PostResult where
  resp : Bool
  err : Option Str

/-- The outside world as seen by one call of `handler`.
`run i` is the result of `c.Run()` for the `i`-th command the run starts
(counting from one): `none` when it returns a nil error, `some e` when it
returns an error, `e` being what the command had written to standard error.
`post b` is the result of `http.Post` of the body `b`. -/
structure World where
  run : Nat → Option Str
  post : Str → PostResult

/-- What a piece of code with effects did: the events, in order, and the value it
panicked with (`none`: it returned normally). -/
abbrev Effect := List Event × Option Value

/-- The run-time panic of a nil pointer dereference. -/
def nilDereference : Value :=
  Value.other (lit "runtime error: invalid memory address or nil pointer dereference")

/-- The run-time panic of `req.Commits[0]` on an empty slice. -/
def indexOutOfRange : Value :=
  Value.other (lit "runtime error: index out of range")

/-! ## The functions of main.go -/

/-- The function `postToSlack` of main.go, lines 155-162.  After the optional log
line the statement `defer resp.Body.Close()` evaluates `resp.Body`: with a nil
`resp` that is a nil pointer dereference; with a response, the body is closed
when the function returns. -/
def postToSlack (cfg : Config) (w : World) (b : Str) : Effect :=
  let r := w.post b
  let sent := [Event.log [lit "sending results to slack"], Event.post cfg.slackURL b]
  let logged :=
    match r.err with
    | some err => sent ++ [Event.log [lit "sending request:", err]]
    | none => sent
  if r.resp = true then (logged ++ [Event.close], none)
  else (logged, some nilDereference)

/-- The text `runIn` stores in `req.Log` when the command with arguments `c` has
failed with `errbuf` on standard error (the `fmt.Sprintf` of line 150). -/
def failureLog (c : List Str) (errbuf : Str) : Str :=
  lit "*Command run: *`" ++ Join c (lit " ") ++ lit "`\n" ++ errbuf

/-- The function `runIn` of main.go, lines 143-153; `i` is the position of the
command in the run, under which the world answers.  On an error the log is
written into `runIn`'s own copy of `req` and the finished report is the panic
value. -/
def runIn (w : World) (i : Nat) (dir : Str) (c : List Str) (req : Req) : Effect :=
  match w.run i with
  | none => ([Event.exec ⟨dir, c⟩], none)
  | some errbuf =>
    let req := { req with Log := failureLog c errbuf }
    match buildBody req with
    | some body => ([Event.exec ⟨dir, c⟩], some (Value.bytes body))
    | none => ([Event.exec ⟨dir, c⟩], some indexOutOfRange)

/-- The function `catch` of main.go, lines 164-173, applied to what `recover()`
returns (`none` for nil: no panic in progress).  A `[]byte` is posted; any other
value is passed to `panic` again. -/
def «catch» (cfg : Config) (w : World) (recovered : Option Value) : Effect :=
  match recovered with
  | none => ([], none)
  | some (Value.bytes err) => postToSlack cfg w err
  | some err => ([], some err)

/-- The twelve commands of the run, in the order of lines 74-85, each with the
directory it is run in. -/
def pipeline (cfg : Config) (req : Req) : List Cmd :=
  [ ⟨cfg.sourcedir, [lit "git", lit "fetch", lit "origin"]⟩,
    ⟨cfg.sourcedir, [lit "git", lit "clean", lit "-xdf"]⟩,
    ⟨cfg.sourcedir, [lit "git", lit "checkout", req.After]⟩,
    ⟨cfg.sourcedir, [lit "git", lit "reset", lit "--hard", req.After]⟩,
    ⟨cfg.sourcedir, [lit "go", lit "install", lit "./cmd/cored"]⟩,
    ⟨cfg.sourcedir, [lit "go", lit "install", lit "./cmd/migratedb"]⟩,
    ⟨cfg.sourcedir, [lit "migratedb", lit "-d", cfg.db1URL]⟩,
    ⟨cfg.sourcedir, [lit "migratedb", lit "-d", cfg.db2URL]⟩,
    ⟨cfg.sourcedir, [lit "migratedb", lit "-d", cfg.db3URL]⟩,
    ⟨cfg.sourcedir ++ lit "/qa/tests", [lit "mvn", lit "package"]⟩,
    ⟨cfg.sourcedir, [lit "./qa/bin/test-singlecore"]⟩,
    ⟨cfg.sourcedir, [lit "./qa/bin/test-multicore"]⟩ ]

/-- Consecutive calls of `runIn`, the first being call number `i` of the run: a
panic in one of them ends the sequence there. -/
def runSteps (w : World) (req : Req) : Nat → List Cmd → Effect
  | _, [] => ([], none)
  | i, c :: rest =>
    match runIn w i c.Dir c.Args req with
    | (ev, some v) => (ev, some v)
    | (ev, none) =>
      let r := runSteps w req (i + 1) rest
      (ev ++ r.1, r.2)

/-- The statements of the goroutine between the `defer`s and its end (lines
74-86): the twelve `runIn` calls, then `postToSlack(buildBody(req))`. -/
def taskBody (cfg : Config) (w : World) (req : Req) : Effect :=
  match runSteps w req 1 (pipeline cfg req) with
  | (ev, some v) => (ev, some v)
  | (ev, none) =>
    match buildBody req with
    | none => (ev, some indexOutOfRange)
    | some body =>
      let p := postToSlack cfg w body
      (ev ++ p.1, p.2)

/-- The goroutine started by `handler` (lines 70-87): `mu.Lock()`, the body, then
the deferred calls in reverse order of their `defer` statements, `catch()` first
and `mu.Unlock()` last.  A panic value in the result is a panic that leaves the
goroutine, which ends the process. -/
def task (cfg : Config) (w : World) (req : Req) : Effect :=
  let body := taskBody cfg w req
  let caught := «catch» cfg w body.2
  ([Event.lock] ++ body.1 ++ caught.1 ++ [Event.unlock], caught.2)

/-- One lower-case hexadecimal digit. -/
def hexDigit (n : Nat) : Nat := if n < 10 then 48 + n else 87 + n

/-- The JSON encoder's rendering of one byte of a string (`encoding/json`, with
HTML escaping on, as `json.Marshal` has it).  Bytes from 0x80 on are copied, as
the encoder does for well-formed UTF-8 outside U+2028 and U+2029. -/
def jsonEscapeByte (b : Nat) : Str :=
  if b = 92 ∨ b = 34 then [92, b]
  else if b = 8 then lit "\\b"
  else if b = 12 then lit "\\f"
  else if b = 10 then lit "\\n"
  else if b = 13 then lit "\\r"
  else if b = 9 then lit "\\t"
  else if b < 32 ∨ b = 60 ∨ b = 62 ∨ b = 38 then
    lit "\\u00" ++ [hexDigit (b / 16), hexDigit (b % 16)]
  else [b]

/-- Model of `json.Marshal(map[string]string{"text": s})`. -/
def marshalText : Str → Str
  | s => lit "\x7b\"text\":\"" ++ (s.map jsonEscapeByte).flatten ++ lit "\"\x7d"

/-- What one call of `handler` brings about: the effects of the handler itself,
up to its return, and the effects of the goroutine it started, if it started
one. -/
structure Handled where
  own : Effect
  run : Option Effect

/-- The function `handler` of main.go, lines 47-89, from the result of
`decoder.Decode(&req)` on: a decoding error, or the decoded request. -/
def handler (cfg : Config) (w : World) (decoded : Except Str Req) : Handled :=
  match decoded with
  | Except.error err =>
    { own := postToSlack cfg w (marshalText (lit "parsing request: " ++ err ++ lit "\n")),
      run := none }
  | Except.ok req =>
    if req.Commits.length ≠ 1 then
      { own := postToSlack cfg w (marshalText (lit "expecting 1 commit")), run := none }
    else
      let own : Effect := ([Event.log [lit "ref pushed:", req.Ref]], none)
      if req.Ref = lit "refs/heads/main" then
        { own := own, run := some (task cfg w req) }
      else
        { own := own, run := none }

/-- The commands run, in order, among a list of events. -/
def execs : List Event → List Cmd
  | [] => []
  | Event.exec c :: es => c :: execs es
  | _ :: es => execs es

/-- The bodies posted to the webhook, in order, among a list of events. -/
def posts : List Event → List Str
  | [] => []
  | Event.post _ b :: es => b :: posts es
  | _ :: es => posts es

/-- The failure report `runIn` builds for a request whose only commit is
`commit`, when the command with arguments `c` failed with `errbuf`. -/
def failureReport (commit : Commit) (c : List Str) (errbuf : Str) : Str :=
  firstAttachment (lit "danger") (lit "failed :thumbsdown:") commit ++
    logAttachment (sanitize (failureLog c errbuf))

/-! ## Well-formed JSON

A recogniser for the grammar of RFC 8259 over bytes.  Bytes from 0x80 on are
accepted inside string literals without checking that they form UTF-8, so the
recogniser accepts at least every JSON text. -/

/-- JSON whitespace: space, tab, line feed, carriage return. -/
def isWs (b : Nat) : Bool := b == 32 || b == 9 || b == 10 || b == 13

/-- Drop leading JSON whitespace. -/
def skipWs : Str → Str
  | [] => []
  | b :: r => if isWs b = true then skipWs r else b :: r

/-- A hexadecimal digit. -/
def isHex (b : Nat) : Bool :=
  (48 ≤ b && b ≤ 57) || (65 ≤ b && b ≤ 70) || (97 ≤ b && b ≤ 102)

/-- A decimal digit. -/
def isDigit (b : Nat) : Bool := 48 ≤ b && b ≤ 57

/-- The rest of a JSON string literal after its opening quote: up to and
including the closing quote. -/
def stringTail : Str → Option Str
  | [] => none
  | 34 :: r => some r
  | 92 :: 117 :: a :: b :: c :: d :: r =>
    if (isHex a && isHex b && isHex c && isHex d) = true then stringTail r else none
  | 92 :: e :: r =>
    if (e == 34 || e == 92 || e == 47 || e == 98 || e == 102 || e == 110 || e == 114
        || e == 116) = true then stringTail r else none
  | b :: r => if b < 32 ∨ b = 92 then none else stringTail r

/-- Drop leading decimal digits. -/
def skipDigits : Str → Str
  | [] => []
  | b :: r => if isDigit b = true then skipDigits r else b :: r

/-- One or more decimal digits. -/
def digits1 : Str → Option Str
  | b :: r => if isDigit b = true then some (skipDigits r) else none
  | [] => none

/-- The optional exponent of a JSON number. -/
def exponent : Str → Option Str
  | 101 :: 43 :: r | 101 :: 45 :: r | 69 :: 43 :: r | 69 :: 45 :: r => digits1 r
  | 101 :: r | 69 :: r => digits1 r
  | s => some s

/-- The optional fraction of a JSON number, then its optional exponent. -/
def fraction : Str → Option Str
  | 46 :: r => (digits1 r).bind exponent
  | s => exponent s

/-- A JSON number. -/
def number : Str → Option Str
  | 45 :: 48 :: r | 48 :: r => fraction r
  | 45 :: b :: r | b :: r => if (49 ≤ b && b ≤ 57) = true then fraction (skipDigits r) else none
  | _ => none

/-- The elements of a non-empty JSON array after its opening bracket, up to and
including the closing bracket; `value` recognises one element. -/
def elements (value : Str → Option Str) : Nat → Str → Option Str
  | 0, _ => none
  | n + 1, s =>
    match value s with
    | none => none
    | some r =>
      match skipWs r with
      | 44 :: r' => elements value n r'
      | 93 :: r' => some r'
      | _ => none

/-- The members of a non-empty JSON object after its opening brace, up to and
including the closing brace; `value` recognises one member value. -/
def members (value : Str → Option Str) : Nat → Str → Option Str
  | 0, _ => none
  | n + 1, s =>
    match skipWs s with
    | 34 :: k =>
      match stringTail k with
      | none => none
      | some r =>
        match skipWs r with
        | 58 :: v =>
          match value v with
          | none => none
          | some r' =>
            match skipWs r' with
            | 44 :: r'' => members value n r''
            | 125 :: r'' => some r''
            | _ => none
        | _ => none
    | _ => none

/-- A JSON value nested at most `depth` deep at the start of the input, after
optional whitespace: what follows it. -/
def value : Nat → Str → Option Str
  | 0, _ => none
  | depth + 1, s =>
    match skipWs s with
    | 34 :: r => stringTail r
    | 91 :: r =>
      match skipWs r with
      | 93 :: r' => some r'
      | _ => elements (value depth) r.length r
    | 123 :: r =>
      match skipWs r with
      | 125 :: r' => some r'
      | _ => members (value depth) r.length r
    | 116 :: 114 :: 117 :: 101 :: r => some r
    | 102 :: 97 :: 108 :: 115 :: 101 :: r => some r
    | 110 :: 117 :: 108 :: 108 :: r => some r
    | s' => number s'

/-- Whether the bytes are one JSON text (RFC 8259): a value, with whitespace
allowed around it, and nothing else. -/
def jsonValid (s : Str) : Bool :=
  match value (s.length + 1) s with
  | some r => skipWs r == []
  | none => false

/-! ## Goroutines and the mutex

The process runs the goroutines started by `handler` interleaved: at each
instant one goroutine performs its next event.  `mu.Lock()` returns only when
the mutex is free and takes it; `mu.Unlock()` frees it.  A goroutine that ends
in a panic ends the process. -/

/-- A goroutine started by `handler`: the events it has performed, the events it
has still to perform (the first of them is the one in progress), whether it has
returned from `mu.Lock()` and not yet called `mu.Unlock()`, and the panic it
ends with, if any. -/
structure Goroutine where
  done : List Event
  todo : List Event
  holds : Bool
  exit : Option Value

/-- The state of the process: the mutex `mu`, whether the process has been ended
by a panic, and its goroutines, numbered. -/
structure Process where
  locked : Bool
  crashed : Bool
  goroutine : Nat → Goroutine

/-- The goroutine after performing the first of its remaining events. -/
def Goroutine.advance (g : Goroutine) (e : Event) (rest : List Event) (holds : Bool) :
    Goroutine :=
  { g with done := g.done ++ [e], todo := rest, holds := holds }

/-- Whether the goroutine, with `rest` still to do, has just ended in a panic. -/
def Goroutine.dies (g : Goroutine) (rest : List Event) : Bool :=
  rest.isEmpty && g.exit.isSome

/-- Goroutine `i` is given the processor.  It performs its next event, unless it
has none left, the process has ended, or the event is `mu.Lock()` and the mutex
is taken: then nothing happens. -/
def Process.step (s : Process) (i : Nat) : Process :=
  if s.crashed = true then s
  else
    match (s.goroutine i).todo with
    | [] => s
    | Event.lock :: rest =>
      if s.locked = true then s
      else
        { locked := true
          crashed := (s.goroutine i).dies rest
          goroutine := Function.update s.goroutine i
            ((s.goroutine i).advance Event.lock rest true) }
    | Event.unlock :: rest =>
      { locked := false
        crashed := (s.goroutine i).dies rest
        goroutine := Function.update s.goroutine i
          ((s.goroutine i).advance Event.unlock rest false) }
    | e :: rest =>
      { locked := s.locked
        crashed := (s.goroutine i).dies rest
        goroutine := Function.update s.goroutine i
          ((s.goroutine i).advance e rest (s.goroutine i).holds) }

/-- The process after the scheduler has given the processor to the goroutines
named by the schedule, one after the other. -/
def Process.after (s : Process) : List Nat → Process
  | [] => s
  | i :: schedule => (s.step i).after schedule

/-- The process at the start: the mutex free, and one goroutine for each of the
given runs, none of which has done anything yet. -/
def Process.start (runs : List Effect) : Process :=
  { locked := false
    crashed := false
    goroutine := fun i =>
      match runs[i]? with
      | some t => { done := [], todo := t.1, holds := false, exit := t.2 }
      | none => { done := [], todo := [], holds := false, exit := none } }

/-- Whether the first of the events is the run of a command. -/
def startsWithExec : List Event → Bool
  | Event.exec _ :: _ => true
  | _ => false

/-- Whether the goroutine is inside its step-execution window: it has a command
still to complete, and either it has completed one already or its first one is
in progress. -/
def Goroutine.inWindow (g : Goroutine) : Bool :=
  !(execs g.todo).isEmpty && (!(execs g.done).isEmpty || startsWithExec g.todo)

/-- Events other than those of the mutex. -/
def plain (l : List Event) : Prop := ∀ e ∈ l, e ≠ Event.lock ∧ e ≠ Event.unlock

/-- The stages of a goroutine whose events are `mu.Lock()`, events other than
those of the mutex, `mu.Unlock()`: not started, between lock and unlock, or
finished. -/
def Goroutine.wellFormed (g : Goroutine) : Prop :=
  (g.holds = false ∧ g.done = [] ∧
      ∃ mid, plain mid ∧ g.todo = Event.lock :: (mid ++ [Event.unlock])) ∨
    (g.holds = true ∧ ∃ mid, plain mid ∧ g.todo = mid ++ [Event.unlock]) ∨
    (g.holds = false ∧ g.todo = [])

/-- The invariant of the process: every goroutine is in one of its stages, a
goroutine holds the mutex only when the mutex is taken, and no two do. -/
def Process.wellFormed (s : Process) : Prop :=
  (∀ i, (s.goroutine i).wellFormed) ∧
    (∀ i, (s.goroutine i).holds = true → s.locked = true) ∧
    (∀ i j, (s.goroutine i).holds = true → (s.goroutine j).holds = true → i = j)

/-! ## Concrete inputs -/

/-- A configuration: the defaults of lines 18-21 and a checkout directory. -/
def sampleConfig : Config :=
  { listen := lit ":4567"
    db1URL := lit "postgres:///core?sslmode=disable"
    db2URL := lit "postgres:///core-2?sslmode=disable"
    db3URL := lit "postgres:///core-3?sslmode=disable"
    slackURL := lit "https://hooks.example/T0"
    sourcedir := lit "/src/chain" }

/-- A commit. -/
def sampleCommit : Commit :=
  { Message := lit "fix", URL := lit "https://github.com/chain/c/1", Author := ⟨lit "bob"⟩ }

/-- A push of one commit to the main branch. -/
def mainPush : Req :=
  { Ref := lit "refs/heads/main", After := lit "4f2a", Log := [], Commits := [sampleCommit] }

/-- A push of one commit to the main branch whose JSON body also carries a
non-empty `Log` member. -/
def mainPushWithLog : Req := { mainPush with Log := lit "x" }

/-- A push of one commit to another branch. -/
def developPush : Req := { mainPush with Ref := lit "refs/heads/develop" }

/-- A push to another branch that carries no commit (a branch deletion, say). -/
def developPushNoCommit : Req := { developPush with Commits := [] }

/-- A push of one commit to the main branch whose commit message holds a double
quote. -/
def quotedMessagePush : Req :=
  { mainPush with Commits := [{ sampleCommit with Message := lit "say \"hi\"" }] }

/-- A world in which every command succeeds and every POST gets a response. -/
def allPass : World :=
  { run := fun _ => none, post := fun _ => ⟨true, none⟩ }

/-- A world in which the ninth command, the third migration, fails. -/
def ninthFails : World :=
  { run := fun i => if i = 9 then some (lit "pq: relation \"blocks\" already exists") else none
    post := fun _ => ⟨true, none⟩ }

/-- A world in which every command succeeds and the POST fails: `http.Post`
returns a nil response and an error. -/
def postFails : World :=
  { run := fun _ => none, post := fun _ => ⟨false, some (lit "dial tcp: connection refused")⟩ }

end Testbot

namespace Testbot

/-! ## Escaping -/

/-- The byte-wise expansion of a string: each byte replaced by `f` of it. -/
def expand (f : Nat → Str) : Str → Str
  | [] => []
  | c :: cs => f c ++ expand f cs

theorem expand_append (f : Nat → Str) (x y : Str) :
    expand f (x ++ y) = expand f x ++ expand f y := by
  induction x with
  | nil => rfl
  | cons c cs ih => simp [expand, ih]

theorem expand_expand (f g : Nat → Str) (s : Str) :
    expand f (expand g s) = expand (fun c => expand f (g c)) s := by
  induction s with
  | nil => rfl
  | cons c cs ih => simp [expand, expand_append, ih]

theorem expand_congr {f g : Nat → Str} (h : ∀ c, f c = g c) (s : Str) :
    expand f s = expand g s := by
  induction s with
  | nil => rfl
  | cons c cs ih => simp [expand, h, ih]

/-- Replacing a one-byte pattern is a byte-wise expansion. -/
theorem Replace_single (s : Str) (a : Nat) (new : Str) :
    Replace s [a] new = expand (fun c => if c = a then new else [c]) s := by
  unfold Replace
  induction s with
  | nil => rfl
  | cons c cs ih =>
    by_cases h : c = a
    · simp [replaceFrom, expand, h, ih]
    · have h' : ¬ a = c := fun e => h e.symm
      simp [replaceFrom, expand, h, h', ih]

theorem escapeOnce_eq_expand (s : Str) : escapeOnce s = expand escapeByte s := by
  induction s with
  | nil => rfl
  | cons c cs ih => simp [escapeOnce, expand, ih]

/-- The four replacements of `sanitize`, composed on one byte, give the escape of
that byte: no replacement touches the output of an earlier one. -/
theorem four_replacements_byte (c : Nat) :
    expand
      (fun c =>
        expand
          (fun c => expand (fun c => if c = 62 then lit "&gt;" else [c])
            (if c = 60 then lit "&lt;" else [c]))
          (if c = 38 then lit "&amp;" else [c]))
      (if c = 34 then lit "\\\"" else [c]) = escapeByte c := by
  by_cases h1 : c = 34
  · subst h1; decide
  by_cases h2 : c = 38
  · subst h2; decide
  by_cases h3 : c = 60
  · subst h3; decide
  by_cases h4 : c = 62
  · subst h4; decide
  simp [escapeByte, expand, h1, h2, h3, h4]

/-- The function `sanitize` is the byte-wise escape. -/
theorem sanitize_eq_expand (s : Str) : sanitize s = expand escapeByte s := by
  have e1 : lit "\"" = [34] := by decide
  have e2 : lit "&" = [38] := by decide
  have e3 : lit "<" = [60] := by decide
  have e4 : lit ">" = [62] := by decide
  simp only [sanitize, e1, e2, e3, e4, Replace_single]
  rw [expand_expand, expand_expand, expand_expand]
  exact expand_congr four_replacements_byte s

theorem sanitize_append (a b : Str) : sanitize (a ++ b) = sanitize a ++ sanitize b := by
  simp [sanitize_eq_expand, expand_append]

/-- C6. For every string `s`, `sanitize s` (four whole-string replacements in the
order quote, ampersand, less-than, greater-than) is the concatenation over the
bytes of `s` of the escape of each byte, so nothing is escaped twice; and
consequently `sanitize` distributes over concatenation. -/
theorem sanitize_escapes_exactly_once :
    (∀ s : Str, sanitize s = escapeOnce s) ∧
    (∀ a b : Str, sanitize (a ++ b) = sanitize a ++ sanitize b) :=
  ⟨fun s => by rw [sanitize_eq_expand, escapeOnce_eq_expand], sanitize_append⟩

/-! ## Events of a run -/

theorem execs_append (a b : List Event) : execs (a ++ b) = execs a ++ execs b := by
  induction a with
  | nil => rfl
  | cons e es ih => cases e <;> simp [execs, ih]

theorem posts_append (a b : List Event) : posts (a ++ b) = posts a ++ posts b := by
  induction a with
  | nil => rfl
  | cons e es ih => cases e <;> simp [posts, ih]

theorem execs_map_exec (l : List Cmd) : execs (l.map Event.exec) = l := by
  induction l with
  | nil => rfl
  | cons c cs ih => simp [execs, ih]

theorem posts_map_exec (l : List Cmd) : posts (l.map Event.exec) = [] := by
  induction l with
  | nil => rfl
  | cons c cs ih => simp [posts, ih]

theorem execs_take_map_exec (l : List Cmd) (k : Nat) :
    execs ((l.map Event.exec).take k) = l.take k := by
  rw [← List.map_take]; exact execs_map_exec _

theorem posts_take_map_exec (l : List Cmd) (k : Nat) :
    posts ((l.map Event.exec).take k) = [] := by
  rw [← List.map_take]; exact posts_map_exec _

theorem execs_postToSlack (cfg : Config) (w : World) (b : Str) :
    execs (postToSlack cfg w b).1 = [] := by
  unfold postToSlack
  cases h1 : (w.post b).err <;> cases h2 : (w.post b).resp <;> simp [h1, h2, execs]

theorem posts_postToSlack (cfg : Config) (w : World) (b : Str) :
    posts (postToSlack cfg w b).1 = [b] := by
  unfold postToSlack
  cases h1 : (w.post b).err <;> cases h2 : (w.post b).resp <;> simp [h1, h2, posts]

/-- With exactly one commit `buildBody` returns, and what it returns. -/
theorem buildBody_one (req : Req) (c : Commit) (h : req.Commits = [c]) :
    buildBody req = some
      (if req.Log = [] then firstAttachment (lit "good") (lit "passed :thumbsup:") c ++ lit "]\x7d"
       else firstAttachment (lit "danger") (lit "failed :thumbsdown:") c ++
         logAttachment (sanitize req.Log)) := by
  unfold buildBody
  rw [h]
  by_cases hl : req.Log = [] <;> simp [hl]

theorem failureLog_ne_nil (c : List Str) (e : Str) : failureLog c e ≠ [] := by
  have h : lit "*Command run: *`" = 42 :: (lit "*Command run: *`").tail := by decide
  unfold failureLog
  rw [h]
  simp

/-- A failing `runIn` on a request with exactly one commit panics with the
finished failure report. -/
theorem runIn_fail (w : World) (i : Nat) (dir : Str) (a : List Str) (req : Req) (c : Commit)
    (e : Str) (h : req.Commits = [c]) (hf : w.run i = some e) :
    runIn w i dir a req =
      ([Event.exec ⟨dir, a⟩],
        some (Value.bytes (firstAttachment (lit "danger") (lit "failed :thumbsdown:") c ++
          logAttachment (sanitize (failureLog a e))))) := by
  unfold runIn
  rw [hf]
  simp only
  rw [buildBody_one { req with Log := failureLog a e } c h]
  simp [failureLog_ne_nil]

/-- While the commands succeed, `runSteps` runs them all, in order. -/
theorem runSteps_ok (w : World) (req : Req) (cmds : List Cmd) (i : Nat)
    (h : ∀ j, j < cmds.length → w.run (i + j) = none) :
    runSteps w req i cmds = (cmds.map Event.exec, none) := by
  induction cmds generalizing i with
  | nil => rfl
  | cons c rest ih =>
    have h0 : w.run i = none := by simpa using h 0 (by simp)
    have hr : ∀ j, j < rest.length → w.run (i + 1 + j) = none := by
      intro j hj
      have := h (j + 1) (by simpa using hj)
      simpa [Nat.add_assoc, Nat.add_comm 1 j] using this
    simp [runSteps, runIn, h0, ih (i + 1) hr]

/-- The first failing command ends `runSteps`: the commands up to and including
it have run, in order, and the result is the panic of its `runIn`. -/
theorem runSteps_fail (w : World) (req : Req) (cmds : List Cmd) (i n : Nat) (c : Cmd)
    (hc : cmds[n]? = some c)
    (hpre : ∀ j, j < n → w.run (i + j) = none)
    (hne : w.run (i + n) ≠ none) :
    runSteps w req i cmds =
      ((cmds.take (n + 1)).map Event.exec, (runIn w (i + n) c.Dir c.Args req).2) := by
  induction cmds generalizing i n with
  | nil => simp at hc
  | cons d rest ih =>
    cases n with
    | zero =>
      simp at hc
      subst hc
      simp only [Nat.add_zero] at hne ⊢
      cases hw : w.run i with
      | none => exact absurd hw hne
      | some e =>
        simp only [runSteps, runIn, hw]
        cases buildBody { req with Log := failureLog d.Args e } <;> simp
    | succ m =>
      have h0 : w.run i = none := by simpa using hpre 0 (by simp)
      have hc' : rest[m]? = some c := by simpa using hc
      have hpre' : ∀ j, j < m → w.run (i + 1 + j) = none := by
        intro j hj
        have := hpre (j + 1) (by omega)
        simpa [Nat.add_assoc, Nat.add_comm 1 j] using this
      have hne' : w.run (i + 1 + m) ≠ none := by
        simpa [Nat.add_assoc, Nat.add_comm 1 m] using hne
      have := ih (i + 1) m hc' hpre' hne'
      simp only [runSteps, runIn, h0, this]
      simp [Nat.add_assoc, Nat.add_comm 1 m]

theorem pipeline_length (cfg : Config) (req : Req) : (pipeline cfg req).length = 12 := rfl

/-- The body of the goroutine when command `k` is the first to fail. -/
theorem taskBody_fail (cfg : Config) (w : World) (req : Req) (commit : Commit) (k : Nat)
    (step : Cmd) (e : Str) (hc : req.Commits = [commit]) (hk : 1 ≤ k)
    (hstep : (pipeline cfg req)[k - 1]? = some step)
    (hpre : ∀ i, 1 ≤ i → i < k → w.run i = none) (hfail : w.run k = some e) :
    taskBody cfg w req =
      (((pipeline cfg req).take k).map Event.exec,
        some (Value.bytes (failureReport commit step.Args e))) := by
  have hk' : 1 + (k - 1) = k := by omega
  have hne : w.run (1 + (k - 1)) ≠ none := by rw [hk', hfail]; simp
  have hpre' : ∀ j, j < k - 1 → w.run (1 + j) = none := fun j hj =>
    hpre (1 + j) (by omega) (by omega)
  have h := runSteps_fail w req (pipeline cfg req) 1 (k - 1) step hstep hpre' hne
  have hk'' : k - 1 + 1 = k := by omega
  rw [hk', hk'', runIn_fail w k step.Dir step.Args req commit e hc hfail] at h
  simp only [taskBody, h, failureReport]

/-- The body of the goroutine when all twelve commands succeed. -/
theorem taskBody_pass (cfg : Config) (w : World) (req : Req) (commit : Commit)
    (hc : req.Commits = [commit]) (hall : ∀ i, 1 ≤ i → i ≤ 12 → w.run i = none) :
    ∃ body, buildBody req = some body ∧
      taskBody cfg w req =
        ((pipeline cfg req).map Event.exec ++ (postToSlack cfg w body).1,
          (postToSlack cfg w body).2) := by
  have h := runSteps_ok w req (pipeline cfg req) 1
    (fun j hj => hall (1 + j) (by omega) (by rw [pipeline_length] at hj; omega))
  refine ⟨_, buildBody_one req commit hc, ?_⟩
  simp only [taskBody, h, buildBody_one req commit hc]

/-- The goroutine around a body that panicked with a finished report: the report
is posted by `catch`, between the body and the unlock. -/
theorem task_of_report (cfg : Config) (w : World) (req : Req) (ev : List Event) (b : Str)
    (h : taskBody cfg w req = (ev, some (Value.bytes b))) :
    task cfg w req =
      ([Event.lock] ++ ev ++ (postToSlack cfg w b).1 ++ [Event.unlock],
        (postToSlack cfg w b).2) := by
  simp only [task, h, «catch»]

/-- An accepted push starts the goroutine, and the handler itself does nothing
but log the ref. -/
theorem handler_accepts (cfg : Config) (w : World) (req : Req)
    (hRef : req.Ref = lit "refs/heads/main") (hOne : req.Commits.length = 1) :
    handler cfg w (Except.ok req) =
      { own := ([Event.log [lit "ref pushed:", req.Ref]], none),
        run := some (task cfg w req) } := by
  simp [handler, hOne, hRef]

theorem step_exists (cfg : Config) (req : Req) (k : Nat) (hk1 : 1 ≤ k) (hk12 : k ≤ 12) :
    ∃ step, (pipeline cfg req)[k - 1]? = some step := by
  have hlt : k - 1 < (pipeline cfg req).length := by rw [pipeline_length]; omega
  exact ⟨(pipeline cfg req)[k - 1], List.getElem?_eq_getElem hlt⟩

/-! ## The properties -/

set_option maxRecDepth 100000 in
/-- The bytes of the failure report, written out: the first attachment with the
color "danger" and the text "Integration tests failed :thumbsdown:", then the
second attachment around the escaped log. -/
theorem failureReport_bytes (commit : Commit) (c : List Str) (e : Str) :
    failureReport commit c e =
      lit "\x7b\n\t\t\"attachments\": [\n\t\t\t\x7b\n\t\t\t\t\"color\": \"danger\",\n\t\t\t\t\"text\": \"Integration tests failed :thumbsdown:\",\n\t\t\t\t\"fields\": [\n\t\t\t\t\t\x7b\n\t\t\t\t\t\t\"title\": \"Commit\",\n\t\t\t\t\t\t\"value\": \"<" ++
      commit.URL ++
      lit "|" ++
      commit.Message ++
      lit ">\",\n\t\t\t\t\t\t\"short\": false\n\t\t\t\t\t\x7d,\n\t\t\t\t\t\x7b\n\t\t\t\t\t\t\"title\": \"Author\",\n\t\t\t\t\t\t\"value\": \"<https://github.com/" ++
      commit.Author.Username ++
      lit "|" ++
      commit.Author.Username ++
      lit ">\",\n\t\t\t\t\t\t\"short\": false\n\t\t\t\t\t\x7d\n\t\t\t\t]\n\t\t\t\x7d" ++
      lit ",\x7b\n\t\t\t\"text\": \"" ++
      escapeOnce (lit "*Command run: *`" ++ Join c (lit " ") ++ lit "`\n" ++ e) ++
      lit "\",\n\t\t\t\"mrkdwn_in\": [\n\t\t\t\t\"text\"\n\t\t\t]\n\t\t\x7d]\x7d" := by
  have hhead : lit "\x7b\n\t\t\"attachments\": [\n\t\t\t\x7b\n\t\t\t\t\"color\": \"danger\",\n\t\t\t\t\"text\": \"Integration tests failed :thumbsdown:\",\n\t\t\t\t\"fields\": [\n\t\t\t\t\t\x7b\n\t\t\t\t\t\t\"title\": \"Commit\",\n\t\t\t\t\t\t\"value\": \"<" =
      lit "\x7b\n\t\t\"attachments\": [\n\t\t\t\x7b\n\t\t\t\t\"color\": \"" ++ (lit "danger" ++
        (lit "\",\n\t\t\t\t\"text\": \"Integration tests " ++ (lit "failed :thumbsdown:" ++
          lit "\",\n\t\t\t\t\"fields\": [\n\t\t\t\t\t\x7b\n\t\t\t\t\t\t\"title\": \"Commit\",\n\t\t\t\t\t\t\"value\": \"<"))) := by
    decide
  have hs : sanitize (failureLog c e) =
      escapeOnce (lit "*Command run: *`" ++ Join c (lit " ") ++ lit "`\n" ++ e) := by
    rw [sanitize_eq_expand, escapeOnce_eq_expand]; rfl
  rw [hhead]
  simp only [failureReport, firstAttachment, logAttachment, hs, List.append_assoc]

/-- The run of an accepted push whose command `k` is the first to fail. -/
theorem run_of_failing_push (cfg : Config) (w : World) (req : Req) (commit : Commit)
    (k : Nat) (step : Cmd) (e : Str) (hc : req.Commits = [commit]) (hk : 1 ≤ k)
    (hstep : (pipeline cfg req)[k - 1]? = some step)
    (hpre : ∀ i, 1 ≤ i → i < k → w.run i = none) (hfail : w.run k = some e) :
    execs (task cfg w req).1 = (pipeline cfg req).take k ∧
      (execs (task cfg w req).1)[k - 1]? = some step ∧
      posts (task cfg w req).1 = [failureReport commit step.Args e] := by
  have hb := taskBody_fail cfg w req commit k step e hc hk hstep hpre hfail
  have ht := task_of_report cfg w req _ _ hb
  have h1 : execs [Event.lock] = [] := rfl
  have h2 : execs [Event.unlock] = [] := rfl
  have h3 : posts [Event.lock] = [] := rfl
  have h4 : posts [Event.unlock] = [] := rfl
  have hex : execs (task cfg w req).1 = (pipeline cfg req).take k := by
    rw [ht]
    simp only [execs_append, execs_map_exec, execs_postToSlack, h1, h2, List.append_nil,
      List.nil_append]
  refine ⟨hex, ?_, ?_⟩
  · rw [hex, List.getElem?_take_of_lt (by omega)]
    exact hstep
  · rw [ht]
    simp only [posts_append, posts_map_exec, posts_postToSlack, h3, h4, List.append_nil,
      List.nil_append]

/-- C1. Fail-fast sequencing. For every accepted push (`Ref` is
`refs/heads/main`, exactly one commit), every `k` from 1 to 12 and every
assignment of outcomes in which commands 1 to `k - 1` succeed and command `k`
fails with standard-error text `e`: the run executes exactly the first `k`
commands of the fixed sequence (git fetch origin; git clean -xdf; git checkout
After; git reset --hard After; go install ./cmd/cored; go install
./cmd/migratedb; migratedb -d for each of the three databases; mvn package in
sourcedir/qa/tests; ./qa/bin/test-singlecore; ./qa/bin/test-multicore), in
order, and nothing after, command `k` being the last one run; the body of the
goroutine ends in a panic carrying the failure report, which is `buildBody` of
the request with `Log` set to the text "*Command run: *" + backquote + the
arguments of command `k` joined by single spaces + backquote + newline + `e`;
that report is what the run posts, and its bytes are the red notification whose
second attachment holds that log, escaped byte by byte. -/
theorem fail_fast_sequencing (cfg : Config) (w : World) (req : Req) (k : Nat) (e : Str)
    (hRef : req.Ref = lit "refs/heads/main") (hOne : req.Commits.length = 1)
    (hk1 : 1 ≤ k) (hk12 : k ≤ 12)
    (hpre : ∀ i, 1 ≤ i → i < k → w.run i = none) (hfail : w.run k = some e) :
    ∃ (run : Effect) (step : Cmd) (commit : Commit) (report : Str),
      (handler cfg w (Except.ok req)).run = some run ∧
      execs (handler cfg w (Except.ok req)).own.1 = [] ∧
      execs run.1 = List.take k
        ([ ⟨cfg.sourcedir, [lit "git", lit "fetch", lit "origin"]⟩,
          ⟨cfg.sourcedir, [lit "git", lit "clean", lit "-xdf"]⟩,
          ⟨cfg.sourcedir, [lit "git", lit "checkout", req.After]⟩,
          ⟨cfg.sourcedir, [lit "git", lit "reset", lit "--hard", req.After]⟩,
          ⟨cfg.sourcedir, [lit "go", lit "install", lit "./cmd/cored"]⟩,
          ⟨cfg.sourcedir, [lit "go", lit "install", lit "./cmd/migratedb"]⟩,
          ⟨cfg.sourcedir, [lit "migratedb", lit "-d", cfg.db1URL]⟩,
          ⟨cfg.sourcedir, [lit "migratedb", lit "-d", cfg.db2URL]⟩,
          ⟨cfg.sourcedir, [lit "migratedb", lit "-d", cfg.db3URL]⟩,
          ⟨cfg.sourcedir ++ lit "/qa/tests", [lit "mvn", lit "package"]⟩,
          ⟨cfg.sourcedir, [lit "./qa/bin/test-singlecore"]⟩,
          ⟨cfg.sourcedir, [lit "./qa/bin/test-multicore"]⟩ ] : List Cmd) ∧
      (execs run.1)[k - 1]? = some step ∧
      (taskBody cfg w req).2 = some (Value.bytes report) ∧
      buildBody { req with
        Log := lit "*Command run: *`" ++ Join step.Args (lit " ") ++ lit "`\n" ++ e } =
          some report ∧
      posts run.1 = [report] ∧
      req.Commits = [commit] ∧
      report =
        lit "\x7b\n\t\t\"attachments\": [\n\t\t\t\x7b\n\t\t\t\t\"color\": \"danger\",\n\t\t\t\t\"text\": \"Integration tests failed :thumbsdown:\",\n\t\t\t\t\"fields\": [\n\t\t\t\t\t\x7b\n\t\t\t\t\t\t\"title\": \"Commit\",\n\t\t\t\t\t\t\"value\": \"<" ++
        commit.URL ++
        lit "|" ++
        commit.Message ++
        lit ">\",\n\t\t\t\t\t\t\"short\": false\n\t\t\t\t\t\x7d,\n\t\t\t\t\t\x7b\n\t\t\t\t\t\t\"title\": \"Author\",\n\t\t\t\t\t\t\"value\": \"<https://github.com/" ++
        commit.Author.Username ++
        lit "|" ++
        commit.Author.Username ++
        lit ">\",\n\t\t\t\t\t\t\"short\": false\n\t\t\t\t\t\x7d\n\t\t\t\t]\n\t\t\t\x7d" ++
        lit ",\x7b\n\t\t\t\"text\": \"" ++
        escapeOnce (lit "*Command run: *`" ++ Join step.Args (lit " ") ++ lit "`\n" ++ e) ++
        lit "\",\n\t\t\t\"mrkdwn_in\": [\n\t\t\t\t\"text\"\n\t\t\t]\n\t\t\x7d]\x7d" := by
  obtain ⟨commit, hc⟩ := List.length_eq_one.mp hOne
  obtain ⟨step, hstep⟩ := step_exists cfg req k hk1 hk12
  have hb := taskBody_fail cfg w req commit k step e hc hk1 hstep hpre hfail
  obtain ⟨hex, hlast, hposts⟩ :=
    run_of_failing_push cfg w req commit k step e hc hk1 hstep hpre hfail
  refine ⟨task cfg w req, step, commit, failureReport commit step.Args e, ?_, ?_, hex, hlast,
    ?_, ?_, hposts, hc, failureReport_bytes commit step.Args e⟩
  · rw [handler_accepts cfg w req hRef hOne]
  · rw [handler_accepts cfg w req hRef hOne]; rfl
  · rw [hb]
  · have := buildBody_one { req with Log := failureLog step.Args e } commit hc
    simpa [failureLog_ne_nil, failureReport, failureLog] using this

set_option maxRecDepth 100000 in
/-- C1 at a concrete input: the ninth command, the third migration, fails. The
nine commands run and the bytes posted, written out. -/
theorem fail_fast_sequencing_witness :
    ∃ run : Effect,
      (handler sampleConfig ninthFails (Except.ok mainPush)).run = some run ∧
      execs run.1 =
        ([ ⟨lit "/src/chain", [lit "git", lit "fetch", lit "origin"]⟩,
          ⟨lit "/src/chain", [lit "git", lit "clean", lit "-xdf"]⟩,
          ⟨lit "/src/chain", [lit "git", lit "checkout", lit "4f2a"]⟩,
          ⟨lit "/src/chain", [lit "git", lit "reset", lit "--hard", lit "4f2a"]⟩,
          ⟨lit "/src/chain", [lit "go", lit "install", lit "./cmd/cored"]⟩,
          ⟨lit "/src/chain", [lit "go", lit "install", lit "./cmd/migratedb"]⟩,
          ⟨lit "/src/chain", [lit "migratedb", lit "-d", lit "postgres:///core?sslmode=disable"]⟩,
          ⟨lit "/src/chain", [lit "migratedb", lit "-d", lit "postgres:///core-2?sslmode=disable"]⟩,
          ⟨lit "/src/chain", [lit "migratedb", lit "-d", lit "postgres:///core-3?sslmode=disable"]⟩ ] : List Cmd) ∧
      posts run.1 =
        [lit "\x7b\n\t\t\"attachments\": [\n\t\t\t\x7b\n\t\t\t\t\"color\": \"danger\",\n" ++
          lit "\t\t\t\t\"text\": \"Integration tests failed :thumbsdown:\",\n" ++
          lit "\t\t\t\t\"fields\": [\n\t\t\t\t\t\x7b\n\t\t\t\t\t\t\"title\": \"Commit\",\n" ++
          lit "\t\t\t\t\t\t\"value\": \"<https://github.com/chain/c/1|fix>\",\n" ++
          lit "\t\t\t\t\t\t\"short\": false\n\t\t\t\t\t\x7d,\n\t\t\t\t\t\x7b\n" ++
          lit "\t\t\t\t\t\t\"title\": \"Author\",\n\t\t\t\t\t\t\"value\": \"<https://github.com/bob|bob>\",\n" ++
          lit "\t\t\t\t\t\t\"short\": false\n\t\t\t\t\t\x7d\n\t\t\t\t]\n\t\t\t\x7d,\x7b\n" ++
          lit "\t\t\t\"text\": \"*Command run: *`migratedb -d postgres:///core-3?sslmode=disable`\n" ++
          lit "pq: relation \\\"blocks\\\" already exists\",\n\t\t\t\"mrkdwn_in\": [\n" ++
          lit "\t\t\t\t\"text\"\n\t\t\t]\n\t\t\x7d]\x7d"] := by
  obtain ⟨run, step, commit, report, hrun, _, hex, hlast, _, _, hposts, hc, hrep⟩ :=
    fail_fast_sequencing sampleConfig ninthFails mainPush 9 (lit "pq: relation \"blocks\" already exists")
      rfl rfl (by decide) (by decide)
      (fun i _ h9 => by
        have h : i ≠ 9 := by omega
        simp [ninthFails, h])
      rfl
  have hstep : step = ⟨lit "/src/chain", [lit "migratedb", lit "-d",
      lit "postgres:///core-3?sslmode=disable"]⟩ := by
    rw [hex] at hlast
    exact (Option.some.inj hlast).symm
  have hcommit : commit = sampleCommit := (List.cons.inj hc).1.symm
  subst hstep hcommit
  refine ⟨run, hrun, ?_, ?_⟩
  · rw [hex]; rfl
  · rw [hposts, hrep]; decide

/-- The sanitized failure log contains the sanitized invocation and the sanitized
standard-error text. -/
theorem sanitize_failureLog (c : List Str) (e : Str) :
    sanitize (failureLog c e) =
      sanitize (lit "*Command run: *`") ++ sanitize (Join c (lit " ")) ++
        sanitize (lit "`\n") ++ sanitize e := by
  simp [failureLog, sanitize_append]

/-- The red notification and the green one differ, whatever follows the first
attachment. -/
theorem red_body_ne_green_body (c : Commit) (x y : Str) :
    firstAttachment (lit "danger") (lit "failed :thumbsdown:") c ++ x ≠
      firstAttachment (lit "good") (lit "passed :thumbsup:") c ++ y := by
  intro h
  simp only [firstAttachment, List.append_assoc] at h
  have h' := List.append_cancel_left h
  have hd : lit "danger" = 100 :: lit "anger" := by decide
  have hg : lit "good" = 103 :: lit "ood" := by decide
  rw [hd, hg] at h'
  simp at h'

/-- The run of an accepted push in which all twelve commands succeed: all twelve
are executed and the one notification is `buildBody` of the request as
decoded. -/
theorem run_of_passing_push (cfg : Config) (w : World) (req : Req) (commit : Commit)
    (hc : req.Commits = [commit]) (hall : ∀ i, 1 ≤ i → i ≤ 12 → w.run i = none) :
    execs (task cfg w req).1 = pipeline cfg req ∧
      ∃ body, buildBody req = some body ∧ posts (task cfg w req).1 = [body] := by
  obtain ⟨body, hbody, hb⟩ := taskBody_pass cfg w req commit hc hall
  have hout : (postToSlack cfg w body).2 = none ∨
      (postToSlack cfg w body).2 = some nilDereference := by
    unfold postToSlack
    cases h : (w.post body).resp <;> simp [h]
  have hc2 : posts («catch» cfg w (postToSlack cfg w body).2).1 = [] ∧
      execs («catch» cfg w (postToSlack cfg w body).2).1 = [] := by
    rcases hout with h | h <;> rw [h] <;> simp [«catch», nilDereference, posts, execs]
  refine ⟨?_, body, hbody, ?_⟩
  · have h1 : execs [Event.lock] = [] := rfl
    have h2 : execs [Event.unlock] = [] := rfl
    simp only [task, hb, execs_append, execs_map_exec, execs_postToSlack, hc2.2, h1, h2,
      List.append_nil, List.nil_append]
  · have h1 : posts [Event.lock] = [] := rfl
    have h2 : posts [Event.unlock] = [] := rfl
    simp only [task, hb, posts_append, posts_map_exec, posts_postToSlack, hc2.1, h1, h2,
      List.append_nil, List.nil_append]

/-- When all twelve commands succeed and the decoded `Log` is empty, the one
notification is the green one, with the two fields and no error-log block. -/
theorem success_report_of_empty_log (cfg : Config) (w : World) (req : Req) (commit : Commit)
    (hRef : req.Ref = lit "refs/heads/main") (hc : req.Commits = [commit])
    (hLog : req.Log = []) (hall : ∀ i, 1 ≤ i → i ≤ 12 → w.run i = none) :
    ∃ run, (handler cfg w (Except.ok req)).run = some run ∧
      execs run.1 = pipeline cfg req ∧
      posts run.1 =
        [firstAttachment (lit "good") (lit "passed :thumbsup:") commit ++ lit "]\x7d"] := by
  have hOne : req.Commits.length = 1 := by rw [hc]; rfl
  obtain ⟨he, body, hbody, hp⟩ := run_of_passing_push cfg w req commit hc hall
  rw [buildBody_one req commit hc] at hbody
  simp only [hLog, if_true, Option.some.injEq] at hbody
  refine ⟨task cfg w req, ?_, he, ?_⟩
  · rw [handler_accepts cfg w req hRef hOne]
  · rw [hp, hbody]

/-- C2, at the failing input. A push of one commit to `refs/heads/main` whose
JSON body carries the member `"Log":"x"`, with all twelve commands succeeding:
all twelve commands are executed, and the one notification posted is the red one
(color "danger", text "Integration tests failed"), followed by an error-log
attachment holding the text of the request's `Log`. -/
theorem success_report_fails_on_decoded_log :
    ∃ run, (handler sampleConfig allPass (Except.ok mainPushWithLog)).run = some run ∧
      execs run.1 = pipeline sampleConfig mainPushWithLog ∧
      posts run.1 =
        [firstAttachment (lit "danger") (lit "failed :thumbsdown:") sampleCommit ++
          logAttachment (lit "x")] ∧
      posts run.1 ≠
        [firstAttachment (lit "good") (lit "passed :thumbsup:") sampleCommit ++ lit "]\x7d"] := by
  obtain ⟨he, body, hbody, hp⟩ :=
    run_of_passing_push sampleConfig allPass mainPushWithLog sampleCommit rfl (fun _ _ _ => rfl)
  have hb : buildBody mainPushWithLog =
      some (firstAttachment (lit "danger") (lit "failed :thumbsdown:") sampleCommit ++
        logAttachment (lit "x")) := by
    have hx : sanitize (lit "x") = lit "x" := by decide
    have hl : mainPushWithLog.Log ≠ [] := by decide
    rw [buildBody_one mainPushWithLog sampleCommit rfl, if_neg hl]
    exact congrArg (fun t => some (_ ++ logAttachment t)) hx
  rw [hb] at hbody
  have hbody' := Option.some.inj hbody
  refine ⟨task sampleConfig allPass mainPushWithLog, rfl, he, ?_, ?_⟩
  · rw [hp, ← hbody']
  · rw [hp, ← hbody']
    intro h
    exact red_body_ne_green_body _ _ _ (List.cons.inj h).1

set_option maxRecDepth 100000 in
/-- C3. Failure report. For every accepted push and every run in which a command
fails (command `k`, the first to fail and the last one run, with standard-error
text `e`): the handler itself posts nothing and the run posts exactly one
notification. Its bytes are the first attachment with color "danger" and text
"Integration tests failed :thumbsdown:", followed by a second attachment block
with the members "text" and "mrkdwn_in"; the text of that block is the escaped
log, which contains `sanitize` of the failing command's arguments joined by
spaces and `sanitize e`, and so do the posted bytes. The success notification,
which would be a second post, is not sent. -/
theorem failure_report (cfg : Config) (w : World) (req : Req) (k : Nat) (e : Str)
    (hRef : req.Ref = lit "refs/heads/main") (hOne : req.Commits.length = 1)
    (hk1 : 1 ≤ k) (hk12 : k ≤ 12)
    (hpre : ∀ i, 1 ≤ i → i < k → w.run i = none) (hfail : w.run k = some e) :
    ∃ (run : Effect) (step : Cmd) (commit : Commit) (text body : Str),
      (handler cfg w (Except.ok req)).run = some run ∧
      posts (handler cfg w (Except.ok req)).own.1 = [] ∧
      execs run.1 = List.take k
        ([ ⟨cfg.sourcedir, [lit "git", lit "fetch", lit "origin"]⟩,
          ⟨cfg.sourcedir, [lit "git", lit "clean", lit "-xdf"]⟩,
          ⟨cfg.sourcedir, [lit "git", lit "checkout", req.After]⟩,
          ⟨cfg.sourcedir, [lit "git", lit "reset", lit "--hard", req.After]⟩,
          ⟨cfg.sourcedir, [lit "go", lit "install", lit "./cmd/cored"]⟩,
          ⟨cfg.sourcedir, [lit "go", lit "install", lit "./cmd/migratedb"]⟩,
          ⟨cfg.sourcedir, [lit "migratedb", lit "-d", cfg.db1URL]⟩,
          ⟨cfg.sourcedir, [lit "migratedb", lit "-d", cfg.db2URL]⟩,
          ⟨cfg.sourcedir, [lit "migratedb", lit "-d", cfg.db3URL]⟩,
          ⟨cfg.sourcedir ++ lit "/qa/tests", [lit "mvn", lit "package"]⟩,
          ⟨cfg.sourcedir, [lit "./qa/bin/test-singlecore"]⟩,
          ⟨cfg.sourcedir, [lit "./qa/bin/test-multicore"]⟩ ] : List Cmd) ∧
      (execs run.1)[k - 1]? = some step ∧
      req.Commits = [commit] ∧
      posts run.1 = [body] ∧
      body =
        lit "\x7b\n\t\t\"attachments\": [\n\t\t\t\x7b\n\t\t\t\t\"color\": \"danger\",\n\t\t\t\t\"text\": \"Integration tests failed :thumbsdown:\",\n\t\t\t\t\"fields\": [\n\t\t\t\t\t\x7b\n\t\t\t\t\t\t\"title\": \"Commit\",\n\t\t\t\t\t\t\"value\": \"<" ++
        commit.URL ++
        lit "|" ++
        commit.Message ++
        lit ">\",\n\t\t\t\t\t\t\"short\": false\n\t\t\t\t\t\x7d,\n\t\t\t\t\t\x7b\n\t\t\t\t\t\t\"title\": \"Author\",\n\t\t\t\t\t\t\"value\": \"<https://github.com/" ++
        commit.Author.Username ++
        lit "|" ++
        commit.Author.Username ++
        lit ">\",\n\t\t\t\t\t\t\"short\": false\n\t\t\t\t\t\x7d\n\t\t\t\t]\n\t\t\t\x7d" ++
        lit ",\x7b\n\t\t\t\"text\": \"" ++
        text ++
        lit "\",\n\t\t\t\"mrkdwn_in\": [\n\t\t\t\t\"text\"\n\t\t\t]\n\t\t\x7d]\x7d" ∧
      text = escapeOnce (lit "*Command run: *`" ++ Join step.Args (lit " ") ++ lit "`\n" ++ e) ∧
      sanitize (Join step.Args (lit " ")) <:+: text ∧
      sanitize e <:+: text ∧
      lit "\"color\": \"danger\"" <:+: body ∧
      lit "\"text\": \"Integration tests failed" <:+: body ∧
      sanitize (Join step.Args (lit " ")) <:+: body ∧
      sanitize e <:+: body := by
  obtain ⟨commit, hc⟩ := List.length_eq_one.mp hOne
  obtain ⟨step, hstep⟩ := step_exists cfg req k hk1 hk12
  obtain ⟨hex, hlast, hposts⟩ :=
    run_of_failing_push cfg w req commit k step e hc hk1 hstep hpre hfail
  have htext : sanitize (failureLog step.Args e) = escapeOnce (lit "*Command run: *`" ++ Join step.Args (lit " ") ++ lit "`\n" ++ e) := by
    rw [sanitize_eq_expand, escapeOnce_eq_expand]; rfl
  have hinv : sanitize (Join step.Args (lit " ")) <:+: sanitize (failureLog step.Args e) := by
    rw [sanitize_failureLog]
    exact ⟨sanitize (lit "*Command run: *`"), sanitize (lit "`\n") ++ sanitize e, by simp⟩
  have herr : sanitize e <:+: sanitize (failureLog step.Args e) := by
    rw [sanitize_failureLog]
    exact ⟨sanitize (lit "*Command run: *`") ++ sanitize (Join step.Args (lit " ")) ++
      sanitize (lit "`\n"), [], by simp⟩
  have hbytes := failureReport_bytes commit step.Args e
  have htb : sanitize (failureLog step.Args e) <:+: failureReport commit step.Args e :=
    ⟨firstAttachment (lit "danger") (lit "failed :thumbsdown:") commit ++
        lit ",\x7b\n\t\t\t\"text\": \"",
      lit "\",\n\t\t\t\"mrkdwn_in\": [\n\t\t\t\t\"text\"\n\t\t\t]\n\t\t\x7d]\x7d",
      by simp [failureReport, logAttachment]⟩
  have hhead : ∀ x : Str, x <:+: lit "\x7b\n\t\t\"attachments\": [\n\t\t\t\x7b\n\t\t\t\t\"color\": \"danger\",\n\t\t\t\t\"text\": \"Integration tests failed :thumbsdown:\",\n\t\t\t\t\"fields\": [\n\t\t\t\t\t\x7b\n\t\t\t\t\t\t\"title\": \"Commit\",\n\t\t\t\t\t\t\"value\": \"<" →
      x <:+: failureReport commit step.Args e := by
    intro x hx
    rw [hbytes]
    simp only [List.append_assoc]
    exact List.IsInfix.trans hx (List.prefix_append _ _).isInfix
  refine ⟨task cfg w req, step, commit, sanitize (failureLog step.Args e),
    failureReport commit step.Args e, ?_, ?_, hex, hlast, hc, hposts, ?_, htext, hinv, herr,
    ?_, ?_, hinv.trans htb, herr.trans htb⟩
  · rw [handler_accepts cfg w req hRef hOne]
  · rw [handler_accepts cfg w req hRef hOne]; rfl
  · rw [hbytes, htext]
  · exact hhead _ ⟨lit "\x7b\n\t\t\"attachments\": [\n\t\t\t\x7b\n\t\t\t\t", lit ",\n\t\t\t\t\"text\": \"Integration tests failed :thumbsdown:\",\n\t\t\t\t\"fields\": [\n\t\t\t\t\t\x7b\n\t\t\t\t\t\t\"title\": \"Commit\",\n\t\t\t\t\t\t\"value\": \"<", by decide⟩
  · exact hhead _ ⟨lit "\x7b\n\t\t\"attachments\": [\n\t\t\t\x7b\n\t\t\t\t\"color\": \"danger\",\n\t\t\t\t", lit " :thumbsdown:\",\n\t\t\t\t\"fields\": [\n\t\t\t\t\t\x7b\n\t\t\t\t\t\t\"title\": \"Commit\",\n\t\t\t\t\t\t\"value\": \"<", by decide⟩

set_option maxRecDepth 100000 in
/-- C3 at a concrete input: the third migration fails with the standard-error
text `pq: relation "blocks" already exists`. The one notification posted,
written out. -/
theorem failure_report_witness :
    ∃ run : Effect,
      (handler sampleConfig ninthFails (Except.ok mainPush)).run = some run ∧
      posts (handler sampleConfig ninthFails (Except.ok mainPush)).own.1 = [] ∧
      posts run.1 =
        [lit "\x7b\n\t\t\"attachments\": [\n\t\t\t\x7b\n\t\t\t\t\"color\": \"danger\",\n" ++
          lit "\t\t\t\t\"text\": \"Integration tests failed :thumbsdown:\",\n" ++
          lit "\t\t\t\t\"fields\": [\n\t\t\t\t\t\x7b\n\t\t\t\t\t\t\"title\": \"Commit\",\n" ++
          lit "\t\t\t\t\t\t\"value\": \"<https://github.com/chain/c/1|fix>\",\n" ++
          lit "\t\t\t\t\t\t\"short\": false\n\t\t\t\t\t\x7d,\n\t\t\t\t\t\x7b\n" ++
          lit "\t\t\t\t\t\t\"title\": \"Author\",\n\t\t\t\t\t\t\"value\": \"<https://github.com/bob|bob>\",\n" ++
          lit "\t\t\t\t\t\t\"short\": false\n\t\t\t\t\t\x7d\n\t\t\t\t]\n\t\t\t\x7d,\x7b\n" ++
          lit "\t\t\t\"text\": \"*Command run: *`migratedb -d postgres:///core-3?sslmode=disable`\n" ++
          lit "pq: relation \\\"blocks\\\" already exists\",\n\t\t\t\"mrkdwn_in\": [\n" ++
          lit "\t\t\t\t\"text\"\n\t\t\t]\n\t\t\x7d]\x7d"] := by
  obtain ⟨run, step, commit, text, body, hrun, hown, hex, hlast, hc, hposts, hbody, htext, _⟩ :=
    failure_report sampleConfig ninthFails mainPush 9 (lit "pq: relation \"blocks\" already exists")
      rfl rfl (by decide) (by decide)
      (fun i _ h9 => by
        have h : i ≠ 9 := by omega
        simp [ninthFails, h])
      rfl
  have hstep : step = ⟨lit "/src/chain", [lit "migratedb", lit "-d",
      lit "postgres:///core-3?sslmode=disable"]⟩ := by
    rw [hex] at hlast
    exact (Option.some.inj hlast).symm
  have hcommit : commit = sampleCommit := (List.cons.inj hc).1.symm
  subst hstep hcommit
  refine ⟨run, hrun, hown, ?_⟩
  rw [hposts, hbody, htext]; decide

/-- C4, as stated, fails. A push to `refs/heads/develop` that carries no commit:
the ref is not the main one, yet the handler posts a notification, the
commit-count rejection, because the commit count is checked before the ref. -/
theorem branch_filter_counterexample :
    developPushNoCommit.Ref ≠ lit "refs/heads/main" ∧
      posts (handler sampleConfig allPass (Except.ok developPushNoCommit)).own.1 =
        [lit "\x7b\"text\":\"expecting 1 commit\"\x7d"] := by
  constructor
  · decide
  · decide

/-- C4, amended. For every decoded request with exactly one commit whose `Ref`
is not `refs/heads/main`, the handler starts no goroutine, runs no command and
sends no notification; it returns normally. -/
theorem branch_filter (cfg : Config) (w : World) (req : Req)
    (hRef : req.Ref ≠ lit "refs/heads/main") (hOne : req.Commits.length = 1) :
    (handler cfg w (Except.ok req)).run = none ∧
      execs (handler cfg w (Except.ok req)).own.1 = [] ∧
      posts (handler cfg w (Except.ok req)).own.1 = [] ∧
      (handler cfg w (Except.ok req)).own.2 = none := by
  simp [handler, hOne, hRef, execs, posts]

/-- C4, amended, at a concrete input: one commit pushed to `refs/heads/develop`. -/
theorem branch_filter_witness :
    (handler sampleConfig allPass (Except.ok developPush)).run = none ∧
      execs (handler sampleConfig allPass (Except.ok developPush)).own.1 = [] ∧
      posts (handler sampleConfig allPass (Except.ok developPush)).own.1 = [] ∧
      (handler sampleConfig allPass (Except.ok developPush)).own.2 = none :=
  branch_filter sampleConfig allPass developPush (by decide) rfl

/-- C5. Commit-count rejection. For every decoded request whose `Commits` list
has a length other than 1, whatever its `Ref`: the handler starts no goroutine,
runs no command, and posts exactly one notification, whose body is
`{"text":"expecting 1 commit"}`. -/
theorem commit_count_rejection (cfg : Config) (w : World) (req : Req)
    (h : req.Commits.length ≠ 1) :
    (handler cfg w (Except.ok req)).run = none ∧
      execs (handler cfg w (Except.ok req)).own.1 = [] ∧
      posts (handler cfg w (Except.ok req)).own.1 = [lit "\x7b\"text\":\"expecting 1 commit\"\x7d"] := by
  have hm : marshalText (lit "expecting 1 commit") = lit "\x7b\"text\":\"expecting 1 commit\"\x7d" := by
    decide
  simp only [handler, h, ne_eq, not_false_eq_true, if_true, execs_postToSlack,
    posts_postToSlack, hm, and_self]

/-- C5 at a concrete input: a push to another branch with no commit. -/
theorem commit_count_rejection_witness :
    (handler sampleConfig allPass (Except.ok developPushNoCommit)).run = none ∧
      execs (handler sampleConfig allPass (Except.ok developPushNoCommit)).own.1 = [] ∧
      posts (handler sampleConfig allPass (Except.ok developPushNoCommit)).own.1 =
        [lit "\x7b\"text\":\"expecting 1 commit\"\x7d"] :=
  commit_count_rejection sampleConfig allPass developPushNoCommit (by decide)

/-- C7, as stated, fails. With a recovered value that is not a `[]byte` (here a
run-time error), `catch` does not complete normally: it ends in a panic with
that same value, and it has neither logged nor posted anything. -/
theorem catch_counterexample :
    («catch» sampleConfig allPass (some nilDereference)).2 = some nilDereference ∧
      («catch» sampleConfig allPass (some nilDereference)).1 = [] := by
  constructor <;> rfl

/-- C7, amended. For every value recovered by `catch`: a `[]byte` failure report
is handed to `postToSlack`, which posts exactly those bytes once, and `catch`
then completes normally when the POST yields a response; any other value is
passed to `panic` again, unchanged, with nothing logged and nothing posted, and
the goroutine ends with that panic after releasing the mutex. -/
theorem catch_delivers_reports_and_reraises_the_rest (cfg : Config) (w : World) :
    (∀ b : Str, «catch» cfg w (some (Value.bytes b)) = postToSlack cfg w b ∧
      posts («catch» cfg w (some (Value.bytes b))).1 = [b] ∧
      ((w.post b).resp = true → («catch» cfg w (some (Value.bytes b))).2 = none)) ∧
    (∀ d : Str, «catch» cfg w (some (Value.other d)) = ([], some (Value.other d))) ∧
    (∀ (req : Req) (d : Str), (taskBody cfg w req).2 = some (Value.other d) →
      (task cfg w req).2 = some (Value.other d) ∧
      (task cfg w req).1 = [Event.lock] ++ (taskBody cfg w req).1 ++ [Event.unlock]) := by
  refine ⟨fun b => ⟨rfl, posts_postToSlack cfg w b, fun h => ?_⟩, fun d => rfl, fun req d h => ?_⟩
  · simp [«catch», postToSlack, h]
  · simp [task, h, «catch»]

/-- C7, amended, at a concrete input: the success notification cannot be
delivered, `postToSlack` panics on the nil response, and that run-time error
leaves the goroutine. -/
theorem catch_delivers_reports_and_reraises_the_rest_witness :
    (taskBody sampleConfig postFails mainPush).2 = some nilDereference ∧
      (task sampleConfig postFails mainPush).2 = some nilDereference :=
  ⟨rfl,
    ((catch_delivers_reports_and_reraises_the_rest sampleConfig postFails).2.2 mainPush
      (lit "runtime error: invalid memory address or nil pointer dereference") rfl).1⟩

/-- C8, at the failing inputs. For every payload `b`, when `http.Post` returns an
error and a nil response, `postToSlack` logs the error and then panics with a
nil pointer dereference (the deferred `resp.Body.Close()` needs `resp.Body`): it
does not return normally. It has posted once and does not post again. -/
theorem postToSlack_panics_on_delivery_error (cfg : Config) (w : World) (b err : Str)
    (h : w.post b = ⟨false, some err⟩) :
    postToSlack cfg w b =
      ([Event.log [lit "sending results to slack"], Event.post cfg.slackURL b,
          Event.log [lit "sending request:", err]],
        some nilDereference) := by
  simp [postToSlack, h]

/-- C8 at a concrete input: the webhook host refuses the connection. -/
theorem postToSlack_panics_on_delivery_error_witness :
    postToSlack sampleConfig postFails (lit "\x7b\x7d") =
      ([Event.log [lit "sending results to slack"], Event.post sampleConfig.slackURL (lit "\x7b\x7d"),
          Event.log [lit "sending request:", lit "dial tcp: connection refused"]],
        some nilDereference) :=
  postToSlack_panics_on_delivery_error sampleConfig postFails (lit "\x7b\x7d")
    (lit "dial tcp: connection refused") rfl

set_option maxRecDepth 100000 in
/-- The recogniser accepts the notification built for a push whose commit fields
are plain text and whose log is empty. -/
theorem buildBody_json_on_plain_push :
    (buildBody mainPush).map jsonValid = some true := by decide

set_option maxRecDepth 100000 in
/-- C9, at two failing inputs. For a push of one commit whose message is
`say "hi"` (empty log), and for the failure report `runIn` builds when
`git fetch origin` fails with the standard-error text `fatal`, the bytes
returned by `buildBody` are not a JSON text: in the first the quote of the
message ends the string literal early, in the second the newline that `runIn`
puts between the invocation and the error text stands raw inside a string
literal. -/
theorem buildBody_not_json :
    (buildBody quotedMessagePush).map jsonValid = some false ∧
    (buildBody { mainPush with
      Log := failureLog [lit "git", lit "fetch", lit "origin"] (lit "fatal") }).map jsonValid =
        some false := by
  constructor <;> decide

/-! ## The mutex -/

theorem plain_append {a b : List Event} (ha : plain a) (hb : plain b) : plain (a ++ b) := by
  intro e he
  rcases List.mem_append.mp he with h | h
  · exact ha e h
  · exact hb e h

theorem plain_nil : plain [] := by
  intro e he; simp at he

theorem plain_postToSlack (cfg : Config) (w : World) (b : Str) : plain (postToSlack cfg w b).1 := by
  intro e he
  unfold postToSlack at he
  cases h1 : (w.post b).err <;> cases h2 : (w.post b).resp <;> simp [h1, h2] at he <;>
    aesop

theorem plain_runSteps (w : World) (req : Req) (cmds : List Cmd) (i : Nat) :
    plain (runSteps w req i cmds).1 := by
  induction cmds generalizing i with
  | nil => exact plain_nil
  | cons c rest ih =>
    have hr : ∀ v, (runIn w i c.Dir c.Args req) = ([Event.exec ⟨c.Dir, c.Args⟩], v) →
        plain (runIn w i c.Dir c.Args req).1 := by
      intro v hv e he
      rw [hv] at he
      simp at he
      simp [he]
    have hfst : (runIn w i c.Dir c.Args req).1 = [Event.exec ⟨c.Dir, c.Args⟩] := by
      unfold runIn
      cases w.run i with
      | none => rfl
      | some e => simp only; cases buildBody { req with Log := failureLog c.Args e } <;> rfl
    have hp : plain [Event.exec ⟨c.Dir, c.Args⟩] := by
      intro e he; simp at he; simp [he]
    unfold runSteps
    rcases hrun : runIn w i c.Dir c.Args req with ⟨ev, _ | v⟩
    · rw [hrun] at hfst
      simp only at hfst ⊢
      rw [hfst]
      exact plain_append hp (ih (i + 1))
    · rw [hrun] at hfst
      simp only at hfst ⊢
      rw [hfst]; exact hp

theorem plain_catch (cfg : Config) (w : World) (v : Option Value) : plain («catch» cfg w v).1 := by
  unfold «catch»
  rcases v with _ | b | d
  · exact plain_nil
  · exact plain_postToSlack cfg w b
  · exact plain_nil

theorem plain_taskBody (cfg : Config) (w : World) (req : Req) : plain (taskBody cfg w req).1 := by
  have h := plain_runSteps w req (pipeline cfg req) 1
  unfold taskBody
  rcases hrun : runSteps w req 1 (pipeline cfg req) with ⟨ev, _ | v⟩
  · rw [hrun] at h
    simp only at h ⊢
    cases buildBody req with
    | none => exact h
    | some body => exact plain_append h (plain_postToSlack cfg w body)
  · rw [hrun] at h
    exact h

/-- The events of the goroutine: `mu.Lock()` first, `mu.Unlock()` last, and no
event of the mutex between the two. -/
theorem task_shape (cfg : Config) (w : World) (req : Req) :
    ∃ mid, plain mid ∧ (task cfg w req).1 = Event.lock :: (mid ++ [Event.unlock]) :=
  ⟨(taskBody cfg w req).1 ++ («catch» cfg w (taskBody cfg w req).2).1,
    plain_append (plain_taskBody cfg w req) (plain_catch cfg w _), by simp [task]⟩

theorem start_wellFormed (runs : List Effect)
    (h : ∀ t ∈ runs, ∃ mid, plain mid ∧ t.1 = Event.lock :: (mid ++ [Event.unlock])) :
    (Process.start runs).wellFormed := by
  refine ⟨fun i => ?_, fun i hi => ?_, fun i j hi => ?_⟩
  · unfold Process.start
    simp only
    cases hr : runs[i]? with
    | none => exact Or.inr (Or.inr ⟨rfl, rfl⟩)
    | some t =>
      obtain ⟨mid, hmid, ht⟩ := h t (List.getElem?_mem hr)
      exact Or.inl ⟨rfl, rfl, mid, hmid, ht⟩
  · exfalso
    unfold Process.start at hi
    simp only at hi
    cases hr : runs[i]? <;> simp [hr] at hi
  · exfalso
    unfold Process.start at hi
    simp only at hi
    cases hr : runs[i]? <;> simp [hr] at hi

/-- What a step does, event by event. -/
theorem step_cases (s : Process) (i : Nat) :
    s.step i = s ∨
    (∃ rest, (s.goroutine i).todo = Event.lock :: rest ∧ s.locked = false ∧
      (s.step i).locked = true ∧
      (s.step i).goroutine = Function.update s.goroutine i
        ((s.goroutine i).advance Event.lock rest true)) ∨
    (∃ rest, (s.goroutine i).todo = Event.unlock :: rest ∧
      (s.step i).locked = false ∧
      (s.step i).goroutine = Function.update s.goroutine i
        ((s.goroutine i).advance Event.unlock rest false)) ∨
    (∃ e rest, (s.goroutine i).todo = e :: rest ∧ e ≠ Event.lock ∧ e ≠ Event.unlock ∧
      (s.step i).locked = s.locked ∧
      (s.step i).goroutine = Function.update s.goroutine i
        ((s.goroutine i).advance e rest (s.goroutine i).holds)) := by
  unfold Process.step
  by_cases hc : s.crashed = true
  · simp [hc]
  · cases htodo : (s.goroutine i).todo with
    | nil => simp [hc]
    | cons e rest =>
      cases e with
      | lock =>
        by_cases hl : s.locked = true
        · simp [hc, hl]
        · right; left
          exact ⟨rest, rfl, by simpa using hl, by simp [hc, hl], by simp [hc, hl]⟩
      | unlock =>
        right; right; left
        exact ⟨rest, rfl, by simp [hc], by simp [hc]⟩
      | exec c =>
        right; right; right
        exact ⟨_, rest, rfl, by simp, by simp, by simp [hc], by simp [hc]⟩
      | post u b =>
        right; right; right
        exact ⟨_, rest, rfl, by simp, by simp, by simp [hc], by simp [hc]⟩
      | log l =>
        right; right; right
        exact ⟨_, rest, rfl, by simp, by simp, by simp [hc], by simp [hc]⟩
      | close =>
        right; right; right
        exact ⟨_, rest, rfl, by simp, by simp, by simp [hc], by simp [hc]⟩

theorem plain_cons {e : Event} {l : List Event} (h : plain (e :: l)) :
    e ≠ Event.lock ∧ e ≠ Event.unlock ∧ plain l :=
  ⟨(h e (by simp)).1, (h e (by simp)).2, fun x hx => h x (by simp [hx])⟩

/-- A step keeps the invariant. -/
theorem step_wellFormed (s : Process) (i : Nat) (h : s.wellFormed) : (s.step i).wellFormed := by
  obtain ⟨hg, hl, hu⟩ := h
  rcases step_cases s i with hs | ⟨rest, htodo, hfree, hlk, hgo⟩ | ⟨rest, htodo, hlk, hgo⟩ |
      ⟨e, rest, htodo, he1, he2, hlk, hgo⟩
  · rw [hs]; exact ⟨hg, hl, hu⟩
  · -- mu.Lock() returns
    have hnone : ∀ j, (s.goroutine j).holds = false := by
      intro j
      cases hj : (s.goroutine j).holds with
      | false => rfl
      | true => rw [hl j hj] at hfree; exact absurd hfree (by simp)
    have hnew : ((s.goroutine i).advance Event.lock rest true).wellFormed := by
      rcases hg i with ⟨_, _, mid, hmid, ht⟩ | ⟨hh, _⟩ | ⟨_, ht⟩
      · rw [htodo] at ht
        have hr : rest = mid ++ [Event.unlock] := (List.cons.inj ht).2
        exact Or.inr (Or.inl ⟨rfl, mid, hmid, hr⟩)
      · rw [hnone i] at hh; exact absurd hh (by simp)
      · rw [htodo] at ht; exact absurd ht (by simp)
    refine ⟨fun j => ?_, fun j _ => hlk, fun j k hj hk => ?_⟩
    · rw [hgo]
      by_cases hji : j = i
      · subst hji; simpa using hnew
      · simpa [Function.update_noteq hji] using hg j
    · rw [hgo] at hj hk
      by_cases hji : j = i
      · by_cases hki : k = i
        · rw [hji, hki]
        · rw [Function.update_noteq hki, hnone k] at hk; exact absurd hk (by simp)
      · rw [Function.update_noteq hji, hnone j] at hj; exact absurd hj (by simp)
  · -- mu.Unlock()
    have hheld : (s.goroutine i).holds = true ∧ rest = [] := by
      rcases hg i with ⟨_, _, mid, _, ht⟩ | ⟨hh, mid, hmid, ht⟩ | ⟨_, ht⟩
      · rw [htodo] at ht; exact absurd (List.cons.inj ht).1 (by simp)
      · refine ⟨hh, ?_⟩
        rw [htodo] at ht
        cases mid with
        | nil => exact (List.cons.inj ht).2
        | cons m ms =>
          have := (List.cons.inj ht).1
          exact absurd this.symm (plain_cons hmid).2.1
      · rw [htodo] at ht; exact absurd ht (by simp)
    have hnone : ∀ j, ((s.step i).goroutine j).holds = false := by
      intro j
      rw [hgo]
      by_cases hji : j = i
      · subst hji; simp [Goroutine.advance]
      · rw [Function.update_noteq hji]
        cases hj : (s.goroutine j).holds with
        | false => rfl
        | true => exact absurd (hu j i hj hheld.1) hji
    refine ⟨fun j => ?_, fun j hj => ?_, fun j k hj _ => ?_⟩
    · rw [hgo]
      by_cases hji : j = i
      · subst hji
        simp only [Function.update_same]
        exact Or.inr (Or.inr ⟨rfl, hheld.2⟩)
      · simpa [Function.update_noteq hji] using hg j
    · rw [hnone j] at hj; exact absurd hj (by simp)
    · rw [hnone j] at hj; exact absurd hj (by simp)
  · -- any other event
    have hnew : ((s.goroutine i).advance e rest (s.goroutine i).holds).wellFormed := by
      rcases hg i with ⟨_, _, mid, _, ht⟩ | ⟨hh, mid, hmid, ht⟩ | ⟨_, ht⟩
      · rw [htodo] at ht; exact absurd (List.cons.inj ht).1 he1
      · rw [htodo] at ht
        cases mid with
        | nil => exact absurd (List.cons.inj ht).1 he2
        | cons m ms =>
          exact Or.inr (Or.inl ⟨hh, ms, (plain_cons hmid).2.2, (List.cons.inj ht).2⟩)
      · rw [htodo] at ht; exact absurd ht (by simp)
    have hsame : ∀ j, ((s.step i).goroutine j).holds = (s.goroutine j).holds := by
      intro j
      rw [hgo]
      by_cases hji : j = i
      · subst hji; simp [Goroutine.advance]
      · rw [Function.update_noteq hji]
    refine ⟨fun j => ?_, fun j hj => ?_, fun j k hj hk => ?_⟩
    · rw [hgo]
      by_cases hji : j = i
      · subst hji; simpa using hnew
      · simpa [Function.update_noteq hji] using hg j
    · rw [hlk]; rw [hsame j] at hj; exact hl j hj
    · rw [hsame j] at hj; rw [hsame k] at hk; exact hu j k hj hk

theorem after_wellFormed (schedule : List Nat) (s : Process) (h : s.wellFormed) :
    (s.after schedule).wellFormed := by
  induction schedule generalizing s with
  | nil => exact h
  | cons i rest ih => exact ih (s.step i) (step_wellFormed s i h)

theorem holds_of_inWindow (g : Goroutine) (h : g.wellFormed) (hw : g.inWindow = true) :
    g.holds = true := by
  rcases h with ⟨_, hd, mid, _, ht⟩ | ⟨hh, _⟩ | ⟨_, ht⟩
  · simp [Goroutine.inWindow, hd, ht, execs, startsWithExec] at hw
  · exact hh
  · simp [Goroutine.inWindow, ht, execs] at hw

theorem handler_run (cfg : Config) (w : World) (req : Req) (t : Effect)
    (h : (handler cfg w (Except.ok req)).run = some t) : t = task cfg w req := by
  unfold handler at h
  by_cases h1 : req.Commits.length ≠ 1
  · simp [h1] at h
  · by_cases h2 : req.Ref = lit "refs/heads/main"
    · simp only [h1, h2, if_true, if_false] at h
      exact (Option.some.inj h).symm
    · simp [h1, h2] at h

/-- Mutual exclusion for any number of runs: in every state the process can
reach, no two goroutines hold the mutex, and a goroutine inside its
step-execution window holds it. -/
theorem mutual_exclusion_of_runs (cfg : Config) (runs : List Effect)
    (h : ∀ t ∈ runs, ∃ w req, (handler cfg w (Except.ok req)).run = some t)
    (schedule : List Nat) :
    (∀ i j, (((Process.start runs).after schedule).goroutine i).holds = true →
      (((Process.start runs).after schedule).goroutine j).holds = true → i = j) ∧
    (∀ i, (((Process.start runs).after schedule).goroutine i).inWindow = true →
      (((Process.start runs).after schedule).goroutine i).holds = true) := by
  have hstart : (Process.start runs).wellFormed := by
    refine start_wellFormed runs (fun t ht => ?_)
    obtain ⟨w, req, hr⟩ := h t ht
    rw [handler_run cfg w req t hr]
    exact task_shape cfg w req
  obtain ⟨hg, _, hu⟩ := after_wellFormed schedule _ hstart
  exact ⟨hu, fun i hi => holds_of_inWindow _ (hg i) hi⟩

/-- The model lets runs proceed: when the first goroutine is scheduled until it
has finished and the second one after it, both runs complete, the first having
run all twelve commands and the second the nine up to its failing one. -/
theorem both_runs_complete :
    (((Process.start [task sampleConfig allPass mainPush,
        task sampleConfig ninthFails mainPush]).after
          (List.replicate 17 0 ++ List.replicate 15 1)).goroutine 0).todo = [] ∧
    (((Process.start [task sampleConfig allPass mainPush,
        task sampleConfig ninthFails mainPush]).after
          (List.replicate 17 0 ++ List.replicate 15 1)).goroutine 1).todo = [] ∧
    execs (((Process.start [task sampleConfig allPass mainPush,
        task sampleConfig ninthFails mainPush]).after
          (List.replicate 17 0 ++ List.replicate 15 1)).goroutine 0).done =
      pipeline sampleConfig mainPush ∧
    execs (((Process.start [task sampleConfig allPass mainPush,
        task sampleConfig ninthFails mainPush]).after
          (List.replicate 17 0 ++ List.replicate 15 1)).goroutine 1).done =
      (pipeline sampleConfig mainPush).take 9 := by
  refine ⟨?_, ?_, ?_, ?_⟩ <;> decide

/-- C10. Mutual exclusion of runs. For any two accepted pushes, whose runs are
goroutines 0 and 1 of the process, and for every schedule, that is at every
instant of every interleaving of the two runs: the two goroutines do not both
hold the mutex; a goroutine inside its step-execution window (a command of its
pipeline in progress, or between two of its commands) holds the mutex; hence the
two step-execution windows do not overlap. -/
theorem runs_mutually_exclusive (cfg : Config) (w₁ w₂ : World) (req₁ req₂ : Req)
    (t₁ t₂ : Effect)
    (h₁ : (handler cfg w₁ (Except.ok req₁)).run = some t₁)
    (h₂ : (handler cfg w₂ (Except.ok req₂)).run = some t₂)
    (schedule : List Nat) :
    ¬ ((((Process.start [t₁, t₂]).after schedule).goroutine 0).holds = true ∧
        (((Process.start [t₁, t₂]).after schedule).goroutine 1).holds = true) ∧
    (∀ i, (((Process.start [t₁, t₂]).after schedule).goroutine i).inWindow = true →
      (((Process.start [t₁, t₂]).after schedule).goroutine i).holds = true) ∧
    ¬ ((((Process.start [t₁, t₂]).after schedule).goroutine 0).inWindow = true ∧
        (((Process.start [t₁, t₂]).after schedule).goroutine 1).inWindow = true) := by
  have h : ∀ t ∈ [t₁, t₂], ∃ w req, (handler cfg w (Except.ok req)).run = some t := by
    intro t ht
    simp only [List.mem_cons, List.mem_singleton, List.not_mem_nil, or_false] at ht
    rcases ht with rfl | rfl
    · exact ⟨w₁, req₁, h₁⟩
    · exact ⟨w₂, req₂, h₂⟩
  obtain ⟨hu, hw⟩ := mutual_exclusion_of_runs cfg [t₁, t₂] h schedule
  refine ⟨fun hh => ?_, hw, fun hh => ?_⟩
  · exact absurd (hu 0 1 hh.1 hh.2) (by decide)
  · exact absurd (hu 0 1 (hw 0 hh.1) (hw 1 hh.2)) (by decide)

/-- C10 at a concrete input: two pushes to the main branch, the first run having
taken the mutex and started its first command, the second waiting for the
mutex. -/
theorem runs_mutually_exclusive_witness :
    (((Process.start [task sampleConfig allPass mainPush,
        task sampleConfig ninthFails mainPush]).after [0, 1, 0, 1]).goroutine 0).inWindow = true ∧
    (((Process.start [task sampleConfig allPass mainPush,
        task sampleConfig ninthFails mainPush]).after [0, 1, 0, 1]).goroutine 1).holds = false ∧
    ¬ ((((Process.start [task sampleConfig allPass mainPush,
          task sampleConfig ninthFails mainPush]).after [0, 1, 0, 1]).goroutine 0).inWindow = true ∧
        (((Process.start [task sampleConfig allPass mainPush,
          task sampleConfig ninthFails mainPush]).after [0, 1, 0, 1]).goroutine 1).inWindow = true) :=
  ⟨by decide, by decide,
    (runs_mutually_exclusive sampleConfig allPass ninthFails mainPush mainPush _ _ rfl rfl
      [0, 1, 0, 1]).2.2⟩

end Testbot
